import Mathlib

/-!
A shallow embedding of the SoroTask contract (`src/contract/src/lib.rs`), a
Soroban task-automation engine, together with proofs about its behaviour.

Modelling conventions:
* `Address` and `Symbol` are modelled as `Nat` and `String`; Soroban `Val`
  is the inductive `Val` below (an opaque atom or a vector of values), which
  is enough to express the resolver-argument wrapping done by `execute`.
* `u64` fields are modelled as `Nat` and `i128` as `Int`; the visible source
  contains no explicit wrapping arithmetic, so additions are modelled as
  unbounded.
* Persistent/instance storage is the record `ContractState` (task map,
  counter, token singleton).
* Each public entry point is a function from an external environment
  (ledger timestamp, authorization verdicts, and the outcomes of
  cross-contract calls) and a pre-state to an `Outcome`: either `ok` with
  the post-state, the emitted events and the external calls made, or
  `abort` (contract error or host panic) with the external calls attempted
  before the failure.  A Soroban transaction is atomic, so an aborted
  invocation leaves the durable state unchanged: `nextState` maps an abort
  back to the pre-state.
-/

/-- Soroban `Address`, modelled as a natural number identifier. -/
abbrev Address := Nat

/-- Soroban `Val`: an opaque host value.  Only the structure needed here is
modelled: atoms, and vectors of values (used by `execute` to wrap the task's
`args` into a single outer element for the resolver call). -/
inductive Val where
  | atom (n : Nat)
  | vec (elems : List Val)

/-- `TaskConfig` from the source: the task record, both as registration input
and as the stored record. -/
structure TaskConfig where
  creator : Address
  target : Address
  function : String
  args : List Val
  resolver : Option Address
  interval : Nat
  last_run : Nat
  gas_balance : Int
  whitelist : List Address

/-- The contract `Error` enum from the source. -/
inductive Error where
  | InvalidInterval
  | Unauthorized
  | InsufficientBalance
  | NotInitialized
  deriving DecidableEq, Repr

/-- Why an invocation aborted: a typed contract error
(`panic_with_error!`) or a fatal host panic (`expect`, `panic!`, a denied
`require_auth`, or a propagated cross-contract fault). -/
inductive Abort where
  | contractError (e : Error)
  | fatal
  deriving DecidableEq, Repr

/-- Events published by the contract. -/
inductive Event where
  | TaskRegistered (task_id : Nat) (creator : Address)
  | GasDeposited (task_id : Nat) (frm : Address) (amount : Int)
  | GasWithdrawn (task_id : Nat) (creator : Address) (amount : Int)
  deriving DecidableEq, Repr

/-- External calls made by the contract during one invocation:
`try_invoke_contract` (failure-isolating), `invoke_contract`
(fault-propagating), and token `transfer`. -/
inductive ExtCall where
  | tryInvoke (contractAddr : Address) (func : String) (args : List Val)
  | invoke (contractAddr : Address) (func : String) (args : List Val)
  | transfer (token : Address) (source : Address) (dest : Address) (amount : Int)

/-- The durable storage of the contract: the per-task records
(`DataKey::Task(id)`), the `DataKey::Counter` cell, and the
`DataKey::Token` singleton. -/
structure ContractState where
  tasks : List (Nat × TaskConfig)
  counter : Option Nat
  token : Option Address

/-- The external world one invocation runs in: the ledger timestamp, the
authorization verdicts (`require_auth`), the contract's own address, and
oracles giving the outcome of each kind of cross-contract call.  For the
resolver, `none` means the `try_invoke_contract` call faulted (panic or
wrong return shape) and `some b` means it returned the boolean `b`
cleanly. -/
structure ExtEnv where
  timestamp : Nat
  auth : Address → Bool
  contract_address : Address
  resolver_check : Address → List Val → Option Bool
  target_ok : Address → String → List Val → Bool
  transfer_ok : Address → Address → Address → Int → Bool

/-- Result of one invocation: commit with post-state, events and external
calls, or abort (state reverted) with the external calls attempted. -/
inductive Outcome (α : Type) where
  | ok (value : α) (state : ContractState) (events : List Event) (calls : List ExtCall)
  | abort (reason : Abort) (calls : List ExtCall)

/-- Key lookup in the task store (first binding wins, as later `set`s are
consed on the front). -/
def findTask : List (Nat × TaskConfig) → Nat → Option TaskConfig
  | [], _ => none
  | (k, v) :: rest, id => if id = k then some v else findTask rest id

/-- `env.storage().persistent().get(&DataKey::Task(id))`. -/
def ContractState.getTask (s : ContractState) (task_id : Nat) : Option TaskConfig :=
  findTask s.tasks task_id

/-- `env.storage().persistent().set(&DataKey::Task(id), &cfg)`. -/
def ContractState.setTask (s : ContractState) (task_id : Nat) (cfg : TaskConfig) :
    ContractState :=
  { s with tasks := (task_id, cfg) :: s.tasks }

/-- The current counter value: `get(&DataKey::Counter).unwrap_or(0)`. -/
def counterVal (s : ContractState) : Nat := s.counter.getD 0

/-- `register(env, config)`: authorization as `config.creator`, the
`interval == 0` check, counter increment, record persist, event. -/
def register (env : ExtEnv) (s : ContractState) (config : TaskConfig) : Outcome Nat :=
  if !env.auth config.creator then
    .abort .fatal []
  else if config.interval == 0 then
    .abort (.contractError .InvalidInterval) []
  else
    let counter := counterVal s + 1
    let s1 : ContractState := { s with counter := some counter }
    let s2 := s1.setTask counter config
    .ok counter s2 [.TaskRegistered counter config.creator] []

/-- `get_task(env, task_id)`: pure read. -/
def get_task (s : ContractState) (task_id : Nat) : Option TaskConfig :=
  s.getTask task_id

/-- `monitor(env)`: empty body. -/
def monitor (_env : ExtEnv) (s : ContractState) : Outcome Unit :=
  .ok () s [] []

/-- The `let should_execute = match config.resolver { ... }` block of
`execute`: the boolean the match computes, together with the
`try_invoke_contract` call it makes (none when `resolver` is absent).  The
resolver is called with the task's `args` packed into a one-element outer
vector, and only a clean `Ok(Ok(true))` — here `some true` — yields
`true`. -/
def resolverGate (env : ExtEnv) (config : TaskConfig) : Bool × List ExtCall :=
  match config.resolver with
  | some resolver_address =>
    (env.resolver_check resolver_address [Val.vec config.args] == some true,
     [ExtCall.tryInvoke resolver_address "check_condition" [Val.vec config.args]])
  | none => (true, [])

/-- `execute(env, keeper, task_id)`: keeper authorization, record load
(fatal if absent), whitelist gate, interval gate (early `return` on "too
early"), failure-isolated resolver call (`resolverGate`), fault-propagating
target call, and the update of `last_run` only after the target call
returned. -/
def execute (env : ExtEnv) (s : ContractState) (keeper : Address) (task_id : Nat) :
    Outcome Unit :=
  if !env.auth keeper then
    .abort .fatal []
  else
    match s.getTask task_id with
    | none => .abort .fatal []
    | some config =>
      if !config.whitelist.isEmpty && !config.whitelist.contains keeper then
        .abort (.contractError .Unauthorized) []
      else if env.timestamp < config.last_run + config.interval then
        .ok () s [] []
      else
        if (resolverGate env config).1 then
          if env.target_ok config.target config.function config.args then
            .ok ()
              (s.setTask task_id { config with last_run := env.timestamp })
              []
              ((resolverGate env config).2 ++
                [ExtCall.invoke config.target config.function config.args])
          else
            .abort .fatal ((resolverGate env config).2 ++
              [ExtCall.invoke config.target config.function config.args])
        else
          .ok () s [] (resolverGate env config).2

/-- `init(env, token)`: one-time initialization of the token singleton. -/
def init (_env : ExtEnv) (s : ContractState) (token : Address) : Outcome Unit :=
  if s.token.isSome then
    .abort .fatal []
  else
    .ok () { s with token := some token } [] []

/-- `deposit_gas(env, task_id, from, amount)`: authorization as `from`,
record load (fatal if absent), token singleton load (fatal if absent),
token transfer from `from` to the contract (fault aborts), then the
balance increment, persist and event. -/
def deposit_gas (env : ExtEnv) (s : ContractState) (task_id : Nat) (frm : Address)
    (amount : Int) : Outcome Unit :=
  if !env.auth frm then
    .abort .fatal []
  else
    match s.getTask task_id with
    | none => .abort .fatal []
    | some config =>
      match s.token with
      | none => .abort .fatal []
      | some token_address =>
        let tcall := ExtCall.transfer token_address frm env.contract_address amount
        if env.transfer_ok token_address frm env.contract_address amount then
          .ok ()
            (s.setTask task_id { config with gas_balance := config.gas_balance + amount })
            [.GasDeposited task_id frm amount]
            [tcall]
        else
          .abort .fatal [tcall]

/-- `withdraw_gas(env, task_id, amount)`: record load (fatal if absent),
authorization as the record's `creator`, the `gas_balance < amount` check,
token singleton load (fatal if absent), token transfer from the contract to
the creator (fault aborts), then the balance decrement, persist and
event. -/
def withdraw_gas (env : ExtEnv) (s : ContractState) (task_id : Nat) (amount : Int) :
    Outcome Unit :=
  match s.getTask task_id with
  | none => .abort .fatal []
  | some config =>
    if !env.auth config.creator then
      .abort .fatal []
    else if config.gas_balance < amount then
      .abort (.contractError .InsufficientBalance) []
    else
      match s.token with
      | none => .abort .fatal []
      | some token_address =>
        let tcall := ExtCall.transfer token_address env.contract_address config.creator amount
        if env.transfer_ok token_address env.contract_address config.creator amount then
          .ok ()
            (s.setTask task_id { config with gas_balance := config.gas_balance - amount })
            [.GasWithdrawn task_id config.creator amount]
            [tcall]
        else
          .abort .fatal [tcall]

/-- `get_token(env)`: fatal if never initialized. -/
def get_token (s : ContractState) : Outcome Address :=
  match s.token with
  | none => .abort .fatal []
  | some token => .ok token s [] []

/-- One public invocation, with the external world it ran against. -/
inductive Op where
  | register (env : ExtEnv) (config : TaskConfig)
  | execute (env : ExtEnv) (keeper : Address) (task_id : Nat)
  | init (env : ExtEnv) (token : Address)
  | deposit_gas (env : ExtEnv) (task_id : Nat) (frm : Address) (amount : Int)
  | withdraw_gas (env : ExtEnv) (task_id : Nat) (amount : Int)
  | monitor (env : ExtEnv)

/-- The durable state an invocation leaves behind: the committed post-state
on `ok`, the unchanged pre-state on `abort` (transactions are atomic). -/
def nextState {α : Type} (s : ContractState) : Outcome α → ContractState
  | .ok _ s' _ _ => s'
  | .abort _ _ => s

/-- The state transition of one invocation. -/
def applyOp (s : ContractState) : Op → ContractState
  | .register env config => nextState s (register env s config)
  | .execute env keeper task_id => nextState s (execute env s keeper task_id)
  | .init env token => nextState s (init env s token)
  | .deposit_gas env task_id frm amount => nextState s (deposit_gas env s task_id frm amount)
  | .withdraw_gas env task_id amount => nextState s (withdraw_gas env s task_id amount)
  | .monitor env => nextState s (monitor env s)

/-- The state after a sequence of invocations. -/
def applyOps (s : ContractState) (ops : List Op) : ContractState :=
  ops.foldl applyOp s

/-- The state of a freshly deployed contract: empty storage. -/
def initialState : ContractState := ⟨[], none, none⟩

/-- The reachable-state invariant: every stored task id is at most the
counter (so the id the next registration will use is fresh). -/
def goodState (s : ContractState) : Prop :=
  ∀ p ∈ s.tasks, p.1 ≤ counterVal s

instance (s : ContractState) : Decidable (goodState s) := by
  unfold goodState; infer_instance

/-! ### Basic storage lemmas -/

theorem findTask_mem {l : List (Nat × TaskConfig)} {id : Nat} {cfg : TaskConfig}
    (h : findTask l id = some cfg) : (id, cfg) ∈ l := by
  induction l with
  | nil => simp [findTask] at h
  | cons p rest ih =>
    obtain ⟨k, v⟩ := p
    by_cases hk : id = k
    · subst hk
      simp [findTask] at h
      subst h
      exact List.mem_cons_self _ _
    · simp [findTask, hk] at h
      exact List.mem_cons_of_mem _ (ih h)

theorem getTask_setTask_self (s : ContractState) (id : Nat) (cfg : TaskConfig) :
    (s.setTask id cfg).getTask id = some cfg := by
  simp [ContractState.setTask, ContractState.getTask, findTask]

theorem getTask_setTask_of_ne (s : ContractState) {id j : Nat} (cfg : TaskConfig)
    (h : j ≠ id) : (s.setTask id cfg).getTask j = s.getTask j := by
  simp [ContractState.setTask, ContractState.getTask, findTask, h]

theorem goodState_getTask_le {s : ContractState} {id : Nat} {cfg : TaskConfig}
    (hg : goodState s) (h : s.getTask id = some cfg) : id ≤ counterVal s :=
  hg (id, cfg) (findTask_mem h)

theorem goodState_fresh {s : ContractState} (hg : goodState s) :
    s.getTask (counterVal s + 1) = none := by
  cases h : s.getTask (counterVal s + 1) with
  | none => rfl
  | some cfg =>
    have := goodState_getTask_le hg h
    omega

/-! ### Per-operation state characterizations -/

theorem register_state_cases (env : ExtEnv) (s : ContractState) (config : TaskConfig) :
    nextState s (register env s config) = s ∨
    nextState s (register env s config) =
      ContractState.setTask { s with counter := some (counterVal s + 1) }
        (counterVal s + 1) config := by
  unfold register
  split
  · exact Or.inl rfl
  · split
    · exact Or.inl rfl
    · exact Or.inr rfl

theorem execute_state_cases (env : ExtEnv) (s : ContractState) (keeper : Address)
    (task_id : Nat) :
    nextState s (execute env s keeper task_id) = s ∨
    ∃ config, s.getTask task_id = some config ∧
      config.last_run + config.interval ≤ env.timestamp ∧
      nextState s (execute env s keeper task_id) =
        s.setTask task_id { config with last_run := env.timestamp } := by
  unfold execute
  split
  · exact Or.inl rfl
  · split
    · exact Or.inl rfl
    · rename_i config _
      split
      · exact Or.inl rfl
      · split
        · exact Or.inl rfl
        · rename_i hlate
          split
          · split
            · exact Or.inr ⟨config, ‹_›, by omega, rfl⟩
            · exact Or.inl rfl
          · exact Or.inl rfl

theorem deposit_gas_state_cases (env : ExtEnv) (s : ContractState) (task_id : Nat)
    (frm : Address) (amount : Int) :
    nextState s (deposit_gas env s task_id frm amount) = s ∨
    ∃ config, s.getTask task_id = some config ∧
      nextState s (deposit_gas env s task_id frm amount) =
        s.setTask task_id { config with gas_balance := config.gas_balance + amount } := by
  unfold deposit_gas
  split
  · exact Or.inl rfl
  · split
    · exact Or.inl rfl
    · rename_i config _
      split
      · exact Or.inl rfl
      · split
        · exact Or.inr ⟨config, ‹_›, rfl⟩
        · exact Or.inl rfl

theorem withdraw_gas_state_cases (env : ExtEnv) (s : ContractState) (task_id : Nat)
    (amount : Int) :
    nextState s (withdraw_gas env s task_id amount) = s ∨
    ∃ config, s.getTask task_id = some config ∧
      nextState s (withdraw_gas env s task_id amount) =
        s.setTask task_id { config with gas_balance := config.gas_balance - amount } := by
  unfold withdraw_gas
  split
  · exact Or.inl rfl
  · rename_i config _
    split
    · exact Or.inl rfl
    · split
      · exact Or.inl rfl
      · split
        · exact Or.inl rfl
        · split
          · exact Or.inr ⟨config, ‹_›, rfl⟩
          · exact Or.inl rfl

theorem init_state_tasks (env : ExtEnv) (s : ContractState) (token : Address) :
    (nextState s (init env s token)).tasks = s.tasks ∧
    (nextState s (init env s token)).counter = s.counter := by
  unfold init
  split
  · exact ⟨rfl, rfl⟩
  · exact ⟨rfl, rfl⟩

theorem monitor_state (env : ExtEnv) (s : ContractState) :
    nextState s (monitor env s) = s := rfl

/-! ### Invariant: stored task ids never exceed the counter -/

theorem goodState_of_tasks_counter {s s' : ContractState} (ht : s'.tasks = s.tasks)
    (hc : s'.counter = s.counter) (hg : goodState s) : goodState s' := by
  intro p hp
  rw [ht] at hp
  have := hg p hp
  simpa [counterVal, hc] using this

theorem goodState_setTask {s : ContractState} {id : Nat} (cfg : TaskConfig)
    (hg : goodState s) (hle : id ≤ counterVal s) : goodState (s.setTask id cfg) := by
  intro p hp
  rcases List.mem_cons.mp hp with h | h
  · subst h
    simpa [ContractState.setTask, counterVal] using hle
  · have := hg p h
    simpa [ContractState.setTask, counterVal] using this

theorem goodState_applyOp (s : ContractState) (op : Op) (hg : goodState s) :
    goodState (applyOp s op) := by
  cases op with
  | register env config =>
    rcases register_state_cases env s config with h | h
    · rw [applyOp, h]; exact hg
    · rw [applyOp, h]
      intro p hp
      rcases List.mem_cons.mp hp with h1 | h1
      · subst h1
        simp [ContractState.setTask, counterVal]
      · have := hg p h1
        simp only [ContractState.setTask, counterVal, Option.getD] at *
        omega
  | execute env keeper task_id =>
    rcases execute_state_cases env s keeper task_id with h | ⟨config, hcfg, _, h⟩
    · rw [applyOp, h]; exact hg
    · rw [applyOp, h]
      exact goodState_setTask _ hg (goodState_getTask_le hg hcfg)
  | init env token =>
    exact goodState_of_tasks_counter (init_state_tasks env s token).1
      (init_state_tasks env s token).2 hg
  | deposit_gas env task_id frm amount =>
    rcases deposit_gas_state_cases env s task_id frm amount with h | ⟨config, hcfg, h⟩
    · rw [applyOp, h]; exact hg
    · rw [applyOp, h]
      exact goodState_setTask _ hg (goodState_getTask_le hg hcfg)
  | withdraw_gas env task_id amount =>
    rcases withdraw_gas_state_cases env s task_id amount with h | ⟨config, hcfg, h⟩
    · rw [applyOp, h]; exact hg
    · rw [applyOp, h]
      exact goodState_setTask _ hg (goodState_getTask_le hg hcfg)
  | monitor env =>
    rw [applyOp, monitor_state]; exact hg

theorem counterVal_le_applyOp (s : ContractState) (op : Op) :
    counterVal s ≤ counterVal (applyOp s op) := by
  cases op with
  | register env config =>
    rcases register_state_cases env s config with h | h
    · rw [applyOp, h]
    · rw [applyOp, h]
      simp [ContractState.setTask, counterVal]
  | execute env keeper task_id =>
    rcases execute_state_cases env s keeper task_id with h | ⟨config, _, _, h⟩
    · rw [applyOp, h]
    · rw [applyOp, h]
      simp [ContractState.setTask, counterVal]
  | init env token =>
    have := (init_state_tasks env s token).2
    rw [applyOp] at *
    simp [counterVal, this]
  | deposit_gas env task_id frm amount =>
    rcases deposit_gas_state_cases env s task_id frm amount with h | ⟨config, _, h⟩
    · rw [applyOp, h]
    · rw [applyOp, h]
      simp [ContractState.setTask, counterVal]
  | withdraw_gas env task_id amount =>
    rcases withdraw_gas_state_cases env s task_id amount with h | ⟨config, _, h⟩
    · rw [applyOp, h]
    · rw [applyOp, h]
      simp [ContractState.setTask, counterVal]
  | monitor env =>
    rw [applyOp, monitor_state]

/-! ### How one invocation can change one stored task record -/

theorem applyOp_task_evolution (s : ContractState) (op : Op) (id : Nat) (cfg : TaskConfig)
    (hg : goodState s) (h : s.getTask id = some cfg) :
    ∃ cfg', (applyOp s op).getTask id = some cfg' ∧
      cfg.last_run ≤ cfg'.last_run ∧
      (cfg'.last_run = cfg.last_run ∨ ∃ env keeper, op = Op.execute env keeper id) ∧
      (cfg'.gas_balance = cfg.gas_balance ∨
        (∃ env frm amount, op = Op.deposit_gas env id frm amount) ∨
        (∃ env amount, op = Op.withdraw_gas env id amount)) := by
  cases op with
  | register env config =>
    rcases register_state_cases env s config with heq | heq
    · exact ⟨cfg, by rw [applyOp, heq, h], le_refl _, Or.inl rfl, Or.inl rfl⟩
    · have hne : id ≠ counterVal s + 1 := by
        have := goodState_getTask_le hg h
        omega
      refine ⟨cfg, ?_, le_refl _, Or.inl rfl, Or.inl rfl⟩
      rw [applyOp, heq]
      simpa [ContractState.setTask, ContractState.getTask, findTask, hne] using h
  | execute env keeper task_id =>
    rcases execute_state_cases env s keeper task_id with heq | ⟨config, hcfg, htime, heq⟩
    · exact ⟨cfg, by rw [applyOp, heq, h], le_refl _, Or.inl rfl, Or.inl rfl⟩
    · by_cases hid : id = task_id
      · subst hid
        rw [h] at hcfg
        injection hcfg with hcfg
        subst hcfg
        refine ⟨{ cfg with last_run := env.timestamp }, ?_,
          show cfg.last_run ≤ env.timestamp by omega, ?_, Or.inl rfl⟩
        · rw [applyOp, heq]
          exact getTask_setTask_self s id _
        · exact Or.inr ⟨env, keeper, rfl⟩
      · refine ⟨cfg, ?_, le_refl _, Or.inl rfl, Or.inl rfl⟩
        rw [applyOp, heq, getTask_setTask_of_ne s _ hid]
        exact h
  | init env token =>
    refine ⟨cfg, ?_, le_refl _, Or.inl rfl, Or.inl rfl⟩
    rw [applyOp]
    have := (init_state_tasks env s token).1
    simpa [ContractState.getTask, this] using h
  | deposit_gas env task_id frm amount =>
    rcases deposit_gas_state_cases env s task_id frm amount with heq | ⟨config, hcfg, heq⟩
    · exact ⟨cfg, by rw [applyOp, heq, h], le_refl _, Or.inl rfl, Or.inl rfl⟩
    · by_cases hid : id = task_id
      · subst hid
        rw [h] at hcfg
        injection hcfg with hcfg
        subst hcfg
        refine ⟨{ cfg with gas_balance := cfg.gas_balance + amount }, ?_, le_refl _,
          Or.inl rfl, Or.inr (Or.inl ⟨env, frm, amount, rfl⟩)⟩
        rw [applyOp, heq]
        exact getTask_setTask_self s id _
      · refine ⟨cfg, ?_, le_refl _, Or.inl rfl, Or.inl rfl⟩
        rw [applyOp, heq, getTask_setTask_of_ne s _ hid]
        exact h
  | withdraw_gas env task_id amount =>
    rcases withdraw_gas_state_cases env s task_id amount with heq | ⟨config, hcfg, heq⟩
    · exact ⟨cfg, by rw [applyOp, heq, h], le_refl _, Or.inl rfl, Or.inl rfl⟩
    · by_cases hid : id = task_id
      · subst hid
        rw [h] at hcfg
        injection hcfg with hcfg
        subst hcfg
        refine ⟨{ cfg with gas_balance := cfg.gas_balance - amount }, ?_, le_refl _,
          Or.inl rfl, Or.inr (Or.inr ⟨env, amount, rfl⟩)⟩
        rw [applyOp, heq]
        exact getTask_setTask_self s id _
      · refine ⟨cfg, ?_, le_refl _, Or.inl rfl, Or.inl rfl⟩
        rw [applyOp, heq, getTask_setTask_of_ne s _ hid]
        exact h
  | monitor env =>
    exact ⟨cfg, by rw [applyOp, monitor_state, h], le_refl _, Or.inl rfl, Or.inl rfl⟩

theorem goodState_applyOps (s : ContractState) (ops : List Op) (hg : goodState s) :
    goodState (applyOps s ops) := by
  induction ops generalizing s with
  | nil => exact hg
  | cons op rest ih =>
    have h1 : applyOps s (op :: rest) = applyOps (applyOp s op) rest := rfl
    rw [h1]
    exact ih _ (goodState_applyOp s op hg)

theorem goodState_initialState : goodState initialState := by
  intro p hp
  simp [initialState] at hp

theorem applyOps_task_evolution (ops : List Op) (s : ContractState) (id : Nat)
    (cfg : TaskConfig) (hg : goodState s) (h : s.getTask id = some cfg) :
    ∃ cfg', (applyOps s ops).getTask id = some cfg' ∧
      cfg.last_run ≤ cfg'.last_run ∧
      ((∀ env keeper, Op.execute env keeper id ∉ ops) → cfg'.last_run = cfg.last_run) ∧
      ((∀ env frm amount, Op.deposit_gas env id frm amount ∉ ops) →
        (∀ env amount, Op.withdraw_gas env id amount ∉ ops) →
        cfg'.gas_balance = cfg.gas_balance) := by
  induction ops generalizing s cfg with
  | nil =>
    exact ⟨cfg, h, le_refl _, fun _ => rfl, fun _ _ => rfl⟩
  | cons op rest ih =>
    obtain ⟨cfg1, h1, hle1, hlast1, hgas1⟩ := applyOp_task_evolution s op id cfg hg h
    obtain ⟨cfg', h', hle', hlast', hgas'⟩ :=
      ih (applyOp s op) cfg1 (goodState_applyOp s op hg) h1
    have hfold : applyOps s (op :: rest) = applyOps (applyOp s op) rest := rfl
    refine ⟨cfg', by rw [hfold]; exact h', le_trans hle1 hle', ?_, ?_⟩
    · intro hno
      have hop : cfg1.last_run = cfg.last_run := by
        rcases hlast1 with heq | ⟨env, keeper, heq⟩
        · exact heq
        · exact absurd (heq ▸ List.mem_cons_self op rest) (hno env keeper)
      have := hlast' (fun env keeper hmem => hno env keeper (List.mem_cons_of_mem _ hmem))
      omega
    · intro hnd hnw
      have hop : cfg1.gas_balance = cfg.gas_balance := by
        rcases hgas1 with heq | ⟨env, frm, amount, heq⟩ | ⟨env, amount, heq⟩
        · exact heq
        · exact absurd (heq ▸ List.mem_cons_self op rest) (hnd env frm amount)
        · exact absurd (heq ▸ List.mem_cons_self op rest) (hnw env amount)
      have := hgas' (fun env frm amount hmem => hnd env frm amount (List.mem_cons_of_mem _ hmem))
        (fun env amount hmem => hnw env amount (List.mem_cons_of_mem _ hmem))
      rw [this, hop]

/-! ### Inversion lemmas for `execute` -/

theorem whitelist_pass {cfg : TaskConfig} {keeper : Address}
    (h : cfg.whitelist = [] ∨ keeper ∈ cfg.whitelist) :
    (!cfg.whitelist.isEmpty && !cfg.whitelist.contains keeper) = false := by
  rcases h with h | h
  · simp [h]
  · simp [h]

theorem execute_target_fault (env : ExtEnv) (s : ContractState) (keeper : Address)
    (task_id : Nat) (cfg : TaskConfig) (h : s.getTask task_id = some cfg)
    (hfault : env.target_ok cfg.target cfg.function cfg.args = false) :
    nextState s (execute env s keeper task_id) = s := by
  unfold execute
  split
  · rfl
  · split
    · rfl
    · rename_i config hconfig
      rw [h] at hconfig
      injection hconfig with hc
      subst hc
      split
      · rfl
      · split
        · rfl
        · split
          · split
            · rename_i htrue
              rw [hfault] at htrue
              exact absurd htrue (by simp)
            · rfl
          · rfl

theorem execute_ok_inversion (env : ExtEnv) (s : ContractState) (keeper : Address)
    (task_id : Nat) (s' : ContractState) (events : List Event) (calls : List ExtCall)
    (h : execute env s keeper task_id = .ok () s' events calls) :
    events = [] ∧
    (s' = s ∨ ∃ cfg, s.getTask task_id = some cfg ∧
      cfg.last_run + cfg.interval ≤ env.timestamp ∧
      (resolverGate env cfg).1 = true ∧
      env.target_ok cfg.target cfg.function cfg.args = true ∧
      s' = s.setTask task_id { cfg with last_run := env.timestamp } ∧
      calls = (resolverGate env cfg).2 ++
        [ExtCall.invoke cfg.target cfg.function cfg.args]) := by
  unfold execute at h
  split at h
  · exact Outcome.noConfusion h
  · split at h
    · exact Outcome.noConfusion h
    · rename_i cfg hcfg
      split at h
      · exact Outcome.noConfusion h
      · split at h
        · injection h with hv hs he hc
          exact ⟨he.symm, Or.inl hs.symm⟩
        · rename_i hlate
          split at h
          · split at h
            · rename_i hres htgt
              injection h with hv hs he hc
              exact ⟨he.symm, Or.inr ⟨cfg, hcfg, by omega, hres, htgt,
                hs.symm, hc.symm⟩⟩
            · exact Outcome.noConfusion h
          · injection h with hv hs he hc
            exact ⟨he.symm, Or.inl hs.symm⟩

/-! ### Concrete instances used by counterexamples and witnesses -/

/-- A fully permissive external world at ledger time 150. -/
def envT : ExtEnv where
  timestamp := 150
  auth := fun _ => true
  contract_address := 999
  resolver_check := fun _ _ => some true
  target_ok := fun _ _ _ => true
  transfer_ok := fun _ _ _ _ => true

/-- A registration input whose `last_run` field is 7 (not 0). -/
def cfg7 : TaskConfig where
  creator := 1
  target := 2
  function := "ping"
  args := []
  resolver := none
  interval := 10
  last_run := 7
  gas_balance := 0
  whitelist := []

/-- A plain task: interval 100, `last_run` 0, prefunded `gas_balance` 1000. -/
def cfgA : TaskConfig where
  creator := 1
  target := 2
  function := "ping"
  args := []
  resolver := none
  interval := 100
  last_run := 0
  gas_balance := 1000
  whitelist := []

/-- The state with `cfgA` stored as task 1 and the counter at 1. -/
def stateA : ContractState := ⟨[(1, cfgA)], some 1, none⟩

/-- `stateA` with the token singleton initialized to address 77. -/
def stateTok : ContractState := ⟨[(1, cfgA)], some 1, some 77⟩

/-- The state `register envT initialState cfg7` commits. -/
def regState7 : ContractState := ⟨[(1, cfg7)], some 1, none⟩

/-! ### Claims -/

/-- C10: the public entry point `monitor` is a total no-op for every state:
no authorization check (its result does not depend on the external world at
all), no storage read or write (the committed state is the pre-state), no
contract invocation, no notification, and no return value. -/
theorem C10_monitor_total_noop :
    ∀ (env : ExtEnv) (s : ContractState),
      monitor env s = .ok () s [] [] ∧
      applyOp s (Op.monitor env) = s ∧
      ∀ env' : ExtEnv, monitor env s = monitor env' s := by
  intro env s
  exact ⟨rfl, rfl, fun _ => rfl⟩

/-- C3: for a stored task and an authorized keeper passing the whitelist, if
`now < last_run + interval` then `execute` returns `ok` with the state
unchanged, no event emitted and no external call made (no resolver probe,
no target invocation, no notification). -/
theorem C3_too_early_is_silent_noop (env : ExtEnv) (s : ContractState)
    (keeper : Address) (task_id : Nat) (cfg : TaskConfig)
    (hcfg : s.getTask task_id = some cfg)
    (hauth : env.auth keeper = true)
    (hwl : cfg.whitelist = [] ∨ keeper ∈ cfg.whitelist)
    (hearly : env.timestamp < cfg.last_run + cfg.interval) :
    execute env s keeper task_id = .ok () s [] [] := by
  unfold execute
  split
  · rename_i hna
    rw [hauth] at hna
    simp at hna
  · split
    · rename_i hnone
      rw [hcfg] at hnone
      exact Option.noConfusion hnone
    · rename_i config hconfig
      rw [hcfg] at hconfig
      injection hconfig with hc
      subst hc
      rw [whitelist_pass hwl]
      simp [hearly]

/-- C3 witness: at ledger time 50, task 1 of `stateA` (interval 100,
`last_run` 0) is too early, and `execute` is a silent no-op. -/
theorem C3_witness :
    execute { envT with timestamp := 50 } stateA 5 1 = .ok () stateA [] [] :=
  C3_too_early_is_silent_noop { envT with timestamp := 50 } stateA 5 1 cfgA rfl rfl
    (Or.inl rfl) (by decide)

/-- C7: with creator authorization, `register` fails with `InvalidInterval`
exactly when `config.interval = 0`; otherwise it returns the new id
`counter + 1`, persists the record under that id, and emits a single
`TaskRegistered` event carrying the id and the creator. -/
theorem C7_register_validation_and_effects (env : ExtEnv) (s : ContractState)
    (config : TaskConfig) (hauth : env.auth config.creator = true) :
    (config.interval = 0 ↔
      register env s config = .abort (.contractError .InvalidInterval) []) ∧
    (config.interval ≠ 0 →
      register env s config =
        .ok (counterVal s + 1)
          (ContractState.setTask { s with counter := some (counterVal s + 1) }
            (counterVal s + 1) config)
          [Event.TaskRegistered (counterVal s + 1) config.creator] [] ∧
      (ContractState.setTask { s with counter := some (counterVal s + 1) }
          (counterVal s + 1) config).getTask (counterVal s + 1) = some config) := by
  constructor
  · constructor
    · intro h0
      unfold register
      rw [hauth]
      simp [h0]
    · intro hreg
      by_contra hne
      unfold register at hreg
      rw [hauth] at hreg
      simp only [Bool.not_true, Bool.false_eq_true, if_false] at hreg
      rw [if_neg (by simpa using hne)] at hreg
      exact Outcome.noConfusion hreg
  · intro hne
    constructor
    · unfold register
      rw [hauth]
      simp [hne]
    · exact getTask_setTask_self _ _ _

/-- C9: with a non-empty whitelist, an authorized keeper outside the
whitelist is rejected with `Unauthorized` before any interval, resolver or
target processing (no external call is made, whatever the timestamp and
oracles say); a keeper in the whitelist, and any keeper when the whitelist
is empty, is never rejected with `Unauthorized`. -/
theorem C9_whitelist_gate :
    (∀ (env : ExtEnv) (s : ContractState) (keeper : Address) (task_id : Nat)
        (cfg : TaskConfig),
      env.auth keeper = true → s.getTask task_id = some cfg →
      cfg.whitelist ≠ [] → keeper ∉ cfg.whitelist →
      execute env s keeper task_id = .abort (.contractError .Unauthorized) []) ∧
    (∀ (env : ExtEnv) (s : ContractState) (keeper : Address) (task_id : Nat)
        (cfg : TaskConfig),
      s.getTask task_id = some cfg → keeper ∈ cfg.whitelist →
      ∀ calls, execute env s keeper task_id ≠ .abort (.contractError .Unauthorized) calls) ∧
    (∀ (env : ExtEnv) (s : ContractState) (keeper : Address) (task_id : Nat)
        (cfg : TaskConfig),
      s.getTask task_id = some cfg → cfg.whitelist = [] →
      ∀ calls, execute env s keeper task_id ≠ .abort (.contractError .Unauthorized) calls) := by
  refine ⟨?_, ?_, ?_⟩
  · intro env s keeper task_id cfg hauth hcfg hne hnm
    unfold execute
    split
    · rename_i hna
      rw [hauth] at hna
      simp at hna
    · split
      · rename_i hnone
        rw [hcfg] at hnone
        exact Option.noConfusion hnone
      · rename_i config hconfig
        rw [hcfg] at hconfig
        injection hconfig with hc
        subst hc
        have hcond : (!cfg.whitelist.isEmpty && !cfg.whitelist.contains keeper) = true := by
          simp [hne, hnm]
        rw [hcond]
        simp
  · intro env s keeper task_id cfg hcfg hmem calls hEq
    unfold execute at hEq
    split at hEq
    · simp at hEq
    · split at hEq
      · simp at hEq
      · rename_i config hconfig
        rw [hcfg] at hconfig
        injection hconfig with hc
        subst hc
        split at hEq
        · rename_i hcond
          simp [hmem] at hcond
        · split at hEq
          · simp at hEq
          · split at hEq
            · split at hEq
              · simp at hEq
              · simp at hEq
            · simp at hEq
  · intro env s keeper task_id cfg hcfg hempty calls hEq
    unfold execute at hEq
    split at hEq
    · simp at hEq
    · split at hEq
      · simp at hEq
      · rename_i config hconfig
        rw [hcfg] at hconfig
        injection hconfig with hc
        subst hc
        split at hEq
        · rename_i hcond
          simp [hempty] at hcond
        · split at hEq
          · simp at hEq
          · split at hEq
            · split at hEq
              · simp at hEq
              · simp at hEq
            · simp at hEq

/-- `stateA` with task 1 whitelisting only keeper 5. -/
def stateWL : ContractState := ⟨[(1, { cfgA with whitelist := [5] })], some 1, none⟩

/-- C9 witness: in a state whose task 1 whitelists only keeper 5, keeper 6
(authorized) is rejected with `Unauthorized` and no external call, and
keeper 5 is never rejected with `Unauthorized`. -/
theorem C9_witness :
    execute envT stateWL 6 1 = .abort (.contractError .Unauthorized) [] ∧
    ∀ calls,
      execute envT stateWL 5 1 ≠ .abort (.contractError .Unauthorized) calls :=
  ⟨C9_whitelist_gate.1 envT stateWL 6 1 { cfgA with whitelist := [5] } rfl rfl
      (by decide) (by decide),
   fun calls => C9_whitelist_gate.2.1 envT stateWL 5 1 { cfgA with whitelist := [5] } rfl
      (by decide) calls⟩

theorem execute_gate_open (env : ExtEnv) (s : ContractState) (keeper : Address)
    (task_id : Nat) (cfg : TaskConfig)
    (hauth : env.auth keeper = true) (hcfg : s.getTask task_id = some cfg)
    (hwl : cfg.whitelist = [] ∨ keeper ∈ cfg.whitelist)
    (hlate : ¬ env.timestamp < cfg.last_run + cfg.interval) :
    execute env s keeper task_id =
      if (resolverGate env cfg).1 then
        if env.target_ok cfg.target cfg.function cfg.args then
          .ok () (s.setTask task_id { cfg with last_run := env.timestamp }) []
            ((resolverGate env cfg).2 ++
              [ExtCall.invoke cfg.target cfg.function cfg.args])
        else
          .abort .fatal ((resolverGate env cfg).2 ++
            [ExtCall.invoke cfg.target cfg.function cfg.args])
      else
        .ok () s [] (resolverGate env cfg).2 := by
  unfold execute
  split
  · rename_i hna
    rw [hauth] at hna
    simp at hna
  · split
    · rename_i hnone
      rw [hcfg] at hnone
      exact Option.noConfusion hnone
    · rename_i config hconfig
      rw [hcfg] at hconfig
      injection hconfig with hc
      subst hc
      rw [whitelist_pass hwl, if_neg (by simp), if_neg hlate]

/-- C4: when the gate is reached with a resolver set, `check_condition` is
probed with the task's `args` wrapped as a single outer vector element; a
fault inside the resolver (`resolver_check` yields `none`), like a clean
`false`, makes `execute` return `ok` with no state change and never aborts
the invocation; the target is invoked and `last_run` advanced only on a
clean `true`; an absent resolver behaves as an implicit `true`. -/
theorem C4_resolver_isolated_gate :
    (∀ (env : ExtEnv) (s : ContractState) (keeper : Address) (task_id : Nat)
        (cfg : TaskConfig) (r : Address),
      env.auth keeper = true → s.getTask task_id = some cfg →
      (cfg.whitelist = [] ∨ keeper ∈ cfg.whitelist) →
      ¬ env.timestamp < cfg.last_run + cfg.interval →
      cfg.resolver = some r →
      ((env.resolver_check r [Val.vec cfg.args] ≠ some true →
        execute env s keeper task_id =
          .ok () s [] [ExtCall.tryInvoke r "check_condition" [Val.vec cfg.args]]) ∧
       (env.resolver_check r [Val.vec cfg.args] = some true →
        env.target_ok cfg.target cfg.function cfg.args = true →
        execute env s keeper task_id =
          .ok () (s.setTask task_id { cfg with last_run := env.timestamp }) []
            [ExtCall.tryInvoke r "check_condition" [Val.vec cfg.args],
             ExtCall.invoke cfg.target cfg.function cfg.args]))) ∧
    (∀ (env : ExtEnv) (s : ContractState) (keeper : Address) (task_id : Nat)
        (cfg : TaskConfig),
      env.auth keeper = true → s.getTask task_id = some cfg →
      (cfg.whitelist = [] ∨ keeper ∈ cfg.whitelist) →
      ¬ env.timestamp < cfg.last_run + cfg.interval →
      cfg.resolver = none →
      env.target_ok cfg.target cfg.function cfg.args = true →
      execute env s keeper task_id =
        .ok () (s.setTask task_id { cfg with last_run := env.timestamp }) []
          [ExtCall.invoke cfg.target cfg.function cfg.args]) := by
  constructor
  · intro env s keeper task_id cfg r hauth hcfg hwl hlate hres
    constructor
    · intro hrc
      rw [execute_gate_open env s keeper task_id cfg hauth hcfg hwl hlate]
      simp [resolverGate, hres, hrc]
    · intro hrc htgt
      rw [execute_gate_open env s keeper task_id cfg hauth hcfg hwl hlate]
      simp [resolverGate, hres, hrc, htgt]
  · intro env s keeper task_id cfg hauth hcfg hwl hlate hres htgt
    rw [execute_gate_open env s keeper task_id cfg hauth hcfg hwl hlate]
    simp [resolverGate, hres, htgt]

/-- Task 1 of `stateR` carries resolver address 7. -/
def cfgR : TaskConfig := { cfgA with resolver := some 7 }

/-- The state with `cfgR` stored as task 1. -/
def stateR : ContractState := ⟨[(1, cfgR)], some 1, none⟩

/-- A world where every resolver call faults. -/
def envFault : ExtEnv := { envT with resolver_check := fun _ _ => none }

/-- C4 witness: with a faulting resolver at address 7, `execute` on task 1
returns `ok` with the state unchanged and exactly one `try_invoke` probe of
`check_condition` with the wrapped args. -/
theorem C4_witness :
    execute envFault stateR 5 1 =
      .ok () stateR [] [ExtCall.tryInvoke 7 "check_condition" [Val.vec cfgR.args]] :=
  (C4_resolver_isolated_gate.1 envFault stateR 5 1 cfgR 7 rfl rfl (Or.inl rfl)
    (by decide) rfl).1 (fun h => Option.noConfusion h)

/-- C2: over any sequence of invocations from a reachable state, a stored
task's `last_run` is monotonically non-decreasing; an `execute` that commits
a changed state did invoke the target successfully and wrote exactly
`last_run := now`; and whenever the target call faults, the stored record is
unchanged. -/
theorem C2_lastRun_monotone_commit_order :
    (∀ (s : ContractState) (ops : List Op) (id : Nat) (cfg : TaskConfig),
      goodState s → s.getTask id = some cfg →
      ∃ cfg', (applyOps s ops).getTask id = some cfg' ∧
        cfg.last_run ≤ cfg'.last_run) ∧
    (∀ (env : ExtEnv) (s : ContractState) (keeper : Address) (task_id : Nat)
        (s' : ContractState) (events : List Event) (calls : List ExtCall),
      execute env s keeper task_id = .ok () s' events calls → s' ≠ s →
      ∃ cfg, s.getTask task_id = some cfg ∧
        env.target_ok cfg.target cfg.function cfg.args = true ∧
        s' = s.setTask task_id { cfg with last_run := env.timestamp } ∧
        ExtCall.invoke cfg.target cfg.function cfg.args ∈ calls) ∧
    (∀ (env : ExtEnv) (s : ContractState) (keeper : Address) (task_id : Nat)
        (cfg : TaskConfig),
      s.getTask task_id = some cfg →
      env.target_ok cfg.target cfg.function cfg.args = false →
      nextState s (execute env s keeper task_id) = s) := by
  refine ⟨?_, ?_, ?_⟩
  · intro s ops id cfg hg h
    obtain ⟨cfg', h', hle, _, _⟩ := applyOps_task_evolution ops s id cfg hg h
    exact ⟨cfg', h', hle⟩
  · intro env s keeper task_id s' events calls hok hne
    obtain ⟨hev, hcase⟩ := execute_ok_inversion env s keeper task_id s' events calls hok
    rcases hcase with h | ⟨cfg, hcfg, _, _, htgt, hs, hcalls⟩
    · exact absurd h hne
    · exact ⟨cfg, hcfg, htgt, hs, by rw [hcalls]; simp⟩
  · intro env s keeper task_id cfg hcfg hfault
    exact execute_target_fault env s keeper task_id cfg hcfg hfault

/-- C2 witness: from `stateA` (task 1: `last_run = 0`), one `execute` at
time 150 leaves a record with `last_run ≥ 0`. -/
theorem C2_witness :
    ∃ cfg', (applyOps stateA [Op.execute envT 5 1]).getTask 1 = some cfg' ∧
      cfgA.last_run ≤ cfg'.last_run :=
  C2_lastRun_monotone_commit_order.1 stateA [Op.execute envT 5 1] 1 cfgA
    (by decide) rfl

/-- C6: task ids are sequential: the counter reads 0 on a fresh deployment
(so the first id is 1); a successful `register` returns `counter + 1` and
advances the counter by exactly 1; any failed `register` (in particular the
`InvalidInterval` failure for `interval = 0`) leaves the state, hence the
Counter, unchanged; in a reachable state the id a successful `register`
assigns is not in use (ids are never reused), and the counter never
decreases under any invocation. -/
theorem C6_sequential_ids :
    counterVal initialState = 0 ∧
    (∀ (env : ExtEnv) (s : ContractState) (config : TaskConfig),
      env.auth config.creator = true → config.interval ≠ 0 →
      register env s config =
        .ok (counterVal s + 1)
          (ContractState.setTask { s with counter := some (counterVal s + 1) }
            (counterVal s + 1) config)
          [Event.TaskRegistered (counterVal s + 1) config.creator] [] ∧
      counterVal (applyOp s (Op.register env config)) = counterVal s + 1) ∧
    (∀ (env : ExtEnv) (s : ContractState) (config : TaskConfig),
      env.auth config.creator = true → config.interval = 0 →
      register env s config = .abort (.contractError .InvalidInterval) []) ∧
    (∀ (env : ExtEnv) (s : ContractState) (config : TaskConfig)
        (reason : Abort) (calls : List ExtCall),
      register env s config = .abort reason calls →
      applyOp s (Op.register env config) = s) ∧
    (∀ s : ContractState, goodState s → s.getTask (counterVal s + 1) = none) ∧
    (∀ (s : ContractState) (op : Op), counterVal s ≤ counterVal (applyOp s op)) := by
  refine ⟨rfl, ?_, ?_, ?_, ?_, ?_⟩
  · intro env s config hauth hne
    have hreg : register env s config =
        .ok (counterVal s + 1)
          (ContractState.setTask { s with counter := some (counterVal s + 1) }
            (counterVal s + 1) config)
          [Event.TaskRegistered (counterVal s + 1) config.creator] [] := by
      unfold register
      rw [hauth]
      simp [hne]
    refine ⟨hreg, ?_⟩
    rw [applyOp, hreg]
    simp [nextState, counterVal, ContractState.setTask]
  · intro env s config hauth h0
    unfold register
    rw [hauth]
    simp [h0]
  · intro env s config reason calls h
    rw [applyOp, h]
    rfl
  · intro s hg
    exact goodState_fresh hg
  · intro s op
    exact counterVal_le_applyOp s op

/-- C6 witness: on a fresh deployment, registering `cfgA` yields id 1 and
counter 1, and registering a zero-interval config fails with
`InvalidInterval` leaving the state unchanged. -/
theorem C6_witness :
    (register envT initialState cfgA =
      .ok 1 (ContractState.setTask { initialState with counter := some 1 } 1 cfgA)
        [Event.TaskRegistered 1 cfgA.creator] [] ∧
      counterVal (applyOp initialState (Op.register envT cfgA)) = 1) ∧
    register envT initialState { cfgA with interval := 0 } =
      .abort (.contractError .InvalidInterval) [] ∧
    applyOp initialState (Op.register envT { cfgA with interval := 0 }) = initialState :=
  ⟨C6_sequential_ids.2.1 envT initialState cfgA rfl (by decide),
   C6_sequential_ids.2.2.1 envT initialState { cfgA with interval := 0 } rfl rfl,
   C6_sequential_ids.2.2.2.1 envT initialState { cfgA with interval := 0 }
     (.contractError .InvalidInterval) []
     (C6_sequential_ids.2.2.1 envT initialState { cfgA with interval := 0 } rfl rfl)⟩

theorem register_ok_inversion (env : ExtEnv) (s : ContractState) (config : TaskConfig)
    (id : Nat) (s1 : ContractState) (events : List Event) (calls : List ExtCall)
    (h : register env s config = .ok id s1 events calls) :
    id = counterVal s + 1 ∧
    s1 = ContractState.setTask { s with counter := some (counterVal s + 1) }
      (counterVal s + 1) config := by
  unfold register at h
  split at h
  · exact Outcome.noConfusion h
  · split at h
    · exact Outcome.noConfusion h
    · injection h with h1 h2 h3 h4
      exact ⟨h1.symm, h2.symm⟩

theorem goodState_register (s : ContractState) (config : TaskConfig) (hg : goodState s) :
    goodState (ContractState.setTask { s with counter := some (counterVal s + 1) }
      (counterVal s + 1) config) := by
  intro p hp
  rcases List.mem_cons.mp hp with h | h
  · subst h
    simp [ContractState.setTask, counterVal]
  · have := hg p h
    simp only [ContractState.setTask, counterVal, Option.getD] at *
    omega

/-- C1 as stated is false on the code: `register` persists the
caller-supplied `last_run` verbatim.  Registering `cfg7` (whose config
carries `last_run = 7`) on a fresh deployment, with no `execute` ever run,
makes `get_task` return a record with `last_run = 7`, not 0. -/
theorem C1_counterexample :
    (((applyOps initialState [Op.register envT cfg7]).getTask 1).map
      TaskConfig.last_run = some 7) ∧
    (∀ env keeper, Op.execute env keeper 1 ∉ [Op.register envT cfg7]) ∧
    (7 : Nat) ≠ 0 := by
  refine ⟨rfl, ?_, by decide⟩
  intro env keeper hmem
  exact Op.noConfusion (List.mem_singleton.mp hmem)

/-- C1 (amended): after a successful `register`, `get_task` returns a record
whose `last_run` equals the `last_run` field supplied in the registration
input (0 exactly when the input supplied 0), and under any further sequence
of invocations containing no `execute` on that task id, `last_run` keeps
that value: it changes only as a direct result of an `execute` call. -/
theorem C1_lastRun_from_registration_input (env : ExtEnv) (s : ContractState)
    (config : TaskConfig) (ops : List Op) (id : Nat) (s1 : ContractState)
    (events : List Event) (calls : List ExtCall)
    (hg : goodState s)
    (hreg : register env s config = .ok id s1 events calls)
    (hnoexec : ∀ e keeper, Op.execute e keeper id ∉ ops) :
    s1.getTask id = some config ∧
    ∃ cfg', (applyOps s1 ops).getTask id = some cfg' ∧
      cfg'.last_run = config.last_run := by
  obtain ⟨hid, hs1⟩ := register_ok_inversion env s config id s1 events calls hreg
  subst hid
  subst hs1
  refine ⟨getTask_setTask_self _ _ _, ?_⟩
  obtain ⟨cfg', h', hle, hfix, _⟩ :=
    applyOps_task_evolution ops _ (counterVal s + 1) config
      (goodState_register s config hg) (getTask_setTask_self _ _ _)
  exact ⟨cfg', h', hfix hnoexec⟩

/-- C1 witness: registering `cfg7` on a fresh deployment commits
`regState7`, whose task-1 record is `cfg7` itself, and a further `monitor`
invocation leaves `last_run` at `cfg7.last_run`. -/
theorem C1_witness :
    regState7.getTask 1 = some cfg7 ∧
    ∃ cfg', (applyOps regState7 [Op.monitor envT]).getTask 1 = some cfg' ∧
      cfg'.last_run = cfg7.last_run :=
  C1_lastRun_from_registration_input envT initialState cfg7 [Op.monitor envT] 1
    regState7 [Event.TaskRegistered 1 1] [] goodState_initialState rfl
    (fun _ _ hmem => Op.noConfusion (List.mem_singleton.mp hmem))

/-- C5 as stated is false on the code: `register` persists the
caller-supplied `gas_balance` verbatim, so after registering `cfgA` (whose
config carries `gas_balance = 1000`) with no deposit or withdrawal ever
performed, the stored balance is 1000 — a value not accounted for by
deposits and withdrawals. -/
theorem C5_counterexample :
    (((applyOps initialState [Op.register envT cfgA]).getTask 1).map
      TaskConfig.gas_balance = some 1000) ∧
    (∀ env frm amount, Op.deposit_gas env 1 frm amount ∉ [Op.register envT cfgA]) ∧
    (∀ env amount, Op.withdraw_gas env 1 amount ∉ [Op.register envT cfgA]) ∧
    (1000 : Int) ≠ 0 := by
  refine ⟨rfl, ?_, ?_, by decide⟩
  · intro env frm amount hmem
    exact Op.noConfusion (List.mem_singleton.mp hmem)
  · intro env amount hmem
    exact Op.noConfusion (List.mem_singleton.mp hmem)

/-- C5 (amended): a task's stored `gas_balance` is initialized by `register`
from the registration input and thereafter changes only through
`deposit_gas` and `withdraw_gas` on that task; in particular `execute`
never consumes or alters any task's `gas_balance`. -/
theorem C5_gas_balance_frame :
    (∀ (env : ExtEnv) (s : ContractState) (keeper : Address) (task_id id : Nat)
        (cfg : TaskConfig),
      s.getTask id = some cfg →
      ∃ cfg', (applyOp s (Op.execute env keeper task_id)).getTask id = some cfg' ∧
        cfg'.gas_balance = cfg.gas_balance) ∧
    (∀ (s : ContractState) (ops : List Op) (id : Nat) (cfg : TaskConfig),
      goodState s → s.getTask id = some cfg →
      (∀ env frm amount, Op.deposit_gas env id frm amount ∉ ops) →
      (∀ env amount, Op.withdraw_gas env id amount ∉ ops) →
      ∃ cfg', (applyOps s ops).getTask id = some cfg' ∧
        cfg'.gas_balance = cfg.gas_balance) := by
  constructor
  · intro env s keeper task_id id cfg h
    rcases execute_state_cases env s keeper task_id with heq | ⟨config, hconfig, _, heq⟩
    · exact ⟨cfg, by rw [applyOp, heq, h], rfl⟩
    · by_cases hid : id = task_id
      · subst hid
        rw [h] at hconfig
        injection hconfig with hc
        subst hc
        exact ⟨{ cfg with last_run := env.timestamp },
          by rw [applyOp, heq]; exact getTask_setTask_self s id _, rfl⟩
      · exact ⟨cfg, by rw [applyOp, heq, getTask_setTask_of_ne s _ hid]; exact h, rfl⟩
  · intro s ops id cfg hg h hnd hnw
    obtain ⟨cfg', h', _, _, hgas⟩ := applyOps_task_evolution ops s id cfg hg h
    exact ⟨cfg', h', hgas hnd hnw⟩

/-- C5 witness: one `execute` on `stateA` leaves task 1's `gas_balance` at
`cfgA.gas_balance`. -/
theorem C5_witness :
    ∃ cfg', (applyOp stateA (Op.execute envT 5 1)).getTask 1 = some cfg' ∧
      cfg'.gas_balance = cfgA.gas_balance :=
  C5_gas_balance_frame.1 envT stateA 5 1 1 cfgA rfl

theorem withdraw_gas_eq (env : ExtEnv) (s : ContractState) (task_id : Nat)
    (amount : Int) (cfg : TaskConfig) (hcfg : s.getTask task_id = some cfg) :
    withdraw_gas env s task_id amount =
      (if !env.auth cfg.creator then .abort .fatal []
       else if cfg.gas_balance < amount then
         .abort (.contractError .InsufficientBalance) []
       else
         match s.token with
         | none => .abort .fatal []
         | some token_address =>
           if env.transfer_ok token_address env.contract_address cfg.creator amount then
             .ok () (s.setTask task_id
                 { cfg with gas_balance := cfg.gas_balance - amount })
               [Event.GasWithdrawn task_id cfg.creator amount]
               [ExtCall.transfer token_address env.contract_address cfg.creator amount]
           else
             .abort .fatal
               [ExtCall.transfer token_address env.contract_address cfg.creator amount]) := by
  unfold withdraw_gas
  rw [hcfg]

/-- C8: `withdraw_gas` requires authorization as the stored record's
creator (a denied authorization is a fatal abort); with the creator
authorized, `amount > gas_balance` fails with `InsufficientBalance`, making
no transfer (no external call) and no state change; otherwise the transfer
from the engine's account to the creator happens first, and only on its
success is `gas_balance` decremented, the record persisted and
`GasWithdrawn(task_id, creator, amount)` emitted — a failing transfer
aborts the invocation after the transfer attempt and before any balance
mutation, leaving the state unchanged. -/
theorem C8_withdraw_gas_spec (env : ExtEnv) (s : ContractState) (task_id : Nat)
    (amount : Int) (cfg : TaskConfig) (hcfg : s.getTask task_id = some cfg) :
    (env.auth cfg.creator = false →
      withdraw_gas env s task_id amount = .abort .fatal []) ∧
    (env.auth cfg.creator = true → cfg.gas_balance < amount →
      withdraw_gas env s task_id amount =
        .abort (.contractError .InsufficientBalance) [] ∧
      nextState s (withdraw_gas env s task_id amount) = s) ∧
    (∀ tok, env.auth cfg.creator = true → ¬ cfg.gas_balance < amount →
      s.token = some tok →
      (env.transfer_ok tok env.contract_address cfg.creator amount = true →
        withdraw_gas env s task_id amount =
          .ok () (s.setTask task_id
              { cfg with gas_balance := cfg.gas_balance - amount })
            [Event.GasWithdrawn task_id cfg.creator amount]
            [ExtCall.transfer tok env.contract_address cfg.creator amount]) ∧
      (env.transfer_ok tok env.contract_address cfg.creator amount = false →
        withdraw_gas env s task_id amount =
          .abort .fatal [ExtCall.transfer tok env.contract_address cfg.creator amount] ∧
        nextState s (withdraw_gas env s task_id amount) = s)) := by
  refine ⟨?_, ?_, ?_⟩
  · intro hna
    rw [withdraw_gas_eq env s task_id amount cfg hcfg]
    simp [hna]
  · intro hauth hlt
    have hw : withdraw_gas env s task_id amount =
        .abort (.contractError .InsufficientBalance) [] := by
      rw [withdraw_gas_eq env s task_id amount cfg hcfg]
      simp [hauth, hlt]
    exact ⟨hw, by rw [hw]; rfl⟩
  · intro tok hauth hge htok
    constructor
    · intro htr
      rw [withdraw_gas_eq env s task_id amount cfg hcfg, htok]
      simp [hauth, hge, htr]
    · intro htr
      have hw : withdraw_gas env s task_id amount =
          .abort .fatal [ExtCall.transfer tok env.contract_address cfg.creator amount] := by
        rw [withdraw_gas_eq env s task_id amount cfg hcfg, htok]
        simp [hauth, hge, htr]
      exact ⟨hw, by rw [hw]; rfl⟩

/-- C8 witness: on `stateTok` (task 1, balance 1000, token initialized),
withdrawing 1500 fails with `InsufficientBalance` and no transfer, while
withdrawing 500 transfers and commits balance 500 with the `GasWithdrawn`
event. -/
theorem C8_witness :
    withdraw_gas envT stateTok 1 1500 =
      .abort (.contractError .InsufficientBalance) [] ∧
    withdraw_gas envT stateTok 1 500 =
      .ok () (stateTok.setTask 1 { cfgA with gas_balance := cfgA.gas_balance - 500 })
        [Event.GasWithdrawn 1 cfgA.creator 500]
        [ExtCall.transfer 77 envT.contract_address cfgA.creator 500] :=
  ⟨((C8_withdraw_gas_spec envT stateTok 1 1500 cfgA rfl).2.1 rfl (by decide)).1,
   ((C8_withdraw_gas_spec envT stateTok 1 500 cfgA rfl).2.2 77 rfl (by decide) rfl).1 rfl⟩

/-- C7 witness: with authorization, registering a zero-interval config on a
fresh deployment fails with `InvalidInterval`, and registering `cfgA` on
`stateA` (counter 1) commits id 2 with its `TaskRegistered` event and
stores the record under id 2. -/
theorem C7_witness :
    register envT initialState { cfgA with interval := 0 } =
      .abort (.contractError .InvalidInterval) [] ∧
    register envT stateA cfgA =
      .ok 2 (ContractState.setTask { stateA with counter := some 2 } 2 cfgA)
        [Event.TaskRegistered 2 cfgA.creator] [] ∧
    (ContractState.setTask { stateA with counter := some 2 } 2 cfgA).getTask 2
      = some cfgA :=
  ⟨(C7_register_validation_and_effects envT initialState { cfgA with interval := 0 }
      rfl).1.mp rfl,
   ((C7_register_validation_and_effects envT stateA cfgA rfl).2 (by decide)).1,
   ((C7_register_validation_and_effects envT stateA cfgA rfl).2 (by decide)).2⟩
